import Mathlib

/-!
# soda `migrate up` (src/soda/cmd/migrate_up.go)

A shallow embedding of the `up` subcommand of soda's `migrate` command.

The file holds one package variable (`migrationStepUp`), one command value
(`migrateUpCmd`) whose `RunE` handler builds a file migrator and delegates to its
`UpTo` operation, and an `init` function that registers the command and its
`--step` / `-s` flag.

The handler is stateful glue code, so it is embedded as a state transformer.
Every call it makes to a collaborator is appended to a call log.  The theorems
about delegated calls do not rest on that log alone: they state what the run
returns and what world it leaves in terms of the collaborators' own results, and
they read the calls from a record that the collaborators themselves keep
(`recording`), so that a call is counted only when the collaborator is run.

Go's `int` is embedded as `Int`: the file performs no arithmetic on the step
value, so no overflow can arise and every statement proved for all of `Int`
holds in particular for every machine integer.
-/

namespace Soda

/-! ## Collaborators -/

/-- The collaborators the handler consumes, none of which is defined in
migrate_up.go: the connection provider `getConn`, the constructor
`pop.NewFileMigrator` and the migrator's `UpTo`.  They are parameters of the
embedding.  Each one may inspect and change the outside world `W` (database,
file system).  A Go `error` is `Option Err`, `none` being `nil`; the constructor
returns its two results as a pair, exactly as the Go function does.  The
collaborators are taken to return to their caller. -/
structure Collab (W Conn Mig Err : Type) where
  /-- The call `getConn()`. -/
  getConn : W → Conn × W
  /-- The call `pop.NewFileMigrator(path, conn)`, returning `(mig, err)`. -/
  NewFileMigrator : String → Conn → W → (Mig × Option Err) × W
  /-- The call `mig.UpTo(step)`, returning an `error`. -/
  UpTo : Mig → Int → W → Option Err × W

/-- One entry of the call log: a call made by the handler to a collaborator,
with the arguments it was given. -/
inductive Call (Conn Mig : Type) where
  | getConn : Call Conn Mig
  | NewFileMigrator (path : String) (conn : Conn) : Call Conn Mig
  | UpTo (mig : Mig) (step : Int) : Call Conn Mig
  deriving DecidableEq, Repr

/-- Recognises a `getConn()` entry of the call log. -/
def Call.isGetConn {Conn Mig : Type} : Call Conn Mig → Bool
  | Call.getConn => true
  | _ => false

/-- Recognises a `pop.NewFileMigrator(..)` entry of the call log. -/
def Call.isNewFileMigrator {Conn Mig : Type} : Call Conn Mig → Bool
  | Call.NewFileMigrator _ _ => true
  | _ => false

/-- Recognises a `mig.UpTo(..)` entry of the call log. -/
def Call.isUpTo {Conn Mig : Type} : Call Conn Mig → Bool
  | Call.UpTo _ _ => true
  | _ => false

/-! ## Program state -/

/-- The state the handler runs in: the package variable `migrationStepUp`
(line 8), the outside world the collaborators act on, and the log of the calls
made so far.  The collaborators receive the world only: `migrationStepUp` is an
unexported variable of package `cmd` whose address is handed to the flag set
alone, so the calls of the handler do not reach it. -/
structure State (W Conn Mig : Type) where
  migrationStepUp : Int
  world : W
  calls : List (Call Conn Mig)

/-- The fields of a `cobra.Command` value that migrate_up.go sets, apart from
the handler, which is the function `RunE` below. -/
structure Command where
  Use : String
  Short : String
  deriving DecidableEq, Repr

/-- The command value of lines 10-20. -/
def migrateUpCmd : Command :=
  { Use := "up", Short := "Apply one or more of the 'up' migrations." }

/-! ## The handler -/

/-- The `RunE` handler of `migrateUpCmd` (lines 13-19).

```go
RunE: func(cmd *cobra.Command, args []string) error {
    mig, err := pop.NewFileMigrator(migrationPath, getConn())
    if err != nil {
        return err
    }
    return mig.UpTo(migrationStepUp)
},
```

`migrationPath` is defined elsewhere in the package and is a parameter.  The
argument `getConn()` is evaluated before the constructor is called.  The result
is the returned `error` together with the state after the run. -/
def RunE {W Conn Mig Err : Type} (env : Collab W Conn Mig Err) (migrationPath : String)
    (_cmd : Command) (_args : List String) (s : State W Conn Mig) :
    Option Err × State W Conn Mig :=
  let c := env.getConn s.world
  let s1 : State W Conn Mig :=
    { s with world := c.2, calls := s.calls ++ [Call.getConn] }
  let r := env.NewFileMigrator migrationPath c.1 s1.world
  let mig := r.1.1
  let err := r.1.2
  let s2 : State W Conn Mig :=
    { s1 with world := r.2, calls := s1.calls ++ [Call.NewFileMigrator migrationPath c.1] }
  match err with
  | some e => (some e, s2)
  | none =>
    let u := env.UpTo mig s2.migrationStepUp s2.world
    (u.1, { s2 with world := u.2,
                    calls := s2.calls ++ [Call.UpTo mig s2.migrationStepUp] })

/-- The calls made during one run of the handler: the entries the run added to
the call log. -/
def runCalls {W Conn Mig Err : Type} (env : Collab W Conn Mig Err) (migrationPath : String)
    (cmd : Command) (args : List String) (s : State W Conn Mig) : List (Call Conn Mig) :=
  (RunE env migrationPath cmd args s).2.calls.drop s.calls.length

/-! Names for the intermediate values of a run, used to state the theorems. -/

/-- The connection returned by the handler's call of `getConn`. -/
def connOf {W Conn Mig Err : Type} (env : Collab W Conn Mig Err) (s : State W Conn Mig) : Conn :=
  (env.getConn s.world).1

/-- The result `(mig, err)` of the handler's call of `pop.NewFileMigrator`. -/
def built {W Conn Mig Err : Type} (env : Collab W Conn Mig Err) (migrationPath : String)
    (s : State W Conn Mig) : Mig × Option Err :=
  (env.NewFileMigrator migrationPath (env.getConn s.world).1 (env.getConn s.world).2).1

/-- The outside world right after the handler's call of `pop.NewFileMigrator`. -/
def worldBuilt {W Conn Mig Err : Type} (env : Collab W Conn Mig Err) (migrationPath : String)
    (s : State W Conn Mig) : W :=
  (env.NewFileMigrator migrationPath (env.getConn s.world).1 (env.getConn s.world).2).2

/-! ## Observing the calls from the collaborators' side

The call log of `State` is written by the embedding of the handler.  To speak
about the calls the collaborators really receive, the collaborators themselves
are instrumented: the log below lives in the outside world and only a
collaborator that is run appends to it. -/

/-- The collaborators `env`, each one recording in the world, next to what `env`
does there, the call it has just received together with its arguments. -/
def recording {W Conn Mig Err : Type} (env : Collab W Conn Mig Err) :
    Collab (W × List (Call Conn Mig)) Conn Mig Err where
  getConn := fun w =>
    ((env.getConn w.1).1, ((env.getConn w.1).2, w.2 ++ [Call.getConn]))
  NewFileMigrator := fun path conn w =>
    ((env.NewFileMigrator path conn w.1).1,
     ((env.NewFileMigrator path conn w.1).2, w.2 ++ [Call.NewFileMigrator path conn]))
  UpTo := fun mig step w =>
    ((env.UpTo mig step w.1).1, ((env.UpTo mig step w.1).2, w.2 ++ [Call.UpTo mig step]))

/-- The start state `s` with an empty record of received calls in its world. -/
def observed {W Conn Mig : Type} (s : State W Conn Mig) :
    State (W × List (Call Conn Mig)) Conn Mig :=
  { migrationStepUp := s.migrationStepUp, world := (s.world, []), calls := s.calls }

/-- The calls the collaborators received during one run of the handler from
`s`, in the order in which they received them. -/
def receivedCalls {W Conn Mig Err : Type} (env : Collab W Conn Mig Err) (migrationPath : String)
    (cmd : Command) (args : List String) (s : State W Conn Mig) : List (Call Conn Mig) :=
  (RunE (recording env) migrationPath cmd args (observed s)).2.world.2

/-! ## Command registration (`init`, lines 22-25) -/

/-- The addresses of `int` variables that migrate_up.go hands to the flag set:
`&migrationStepUp` is the only one. -/
inductive IntVar where
  | migrationStepUp : IntVar
  deriving DecidableEq, Repr

/-- Assignment through an address: `*p = v`. -/
def store {W Conn Mig : Type} (p : IntVar) (v : Int) (s : State W Conn Mig) : State W Conn Mig :=
  match p with
  | IntVar.migrationStepUp => { s with migrationStepUp := v }

/-- An integer flag as registered by `IntVarP`: the address it writes to, its
long name, its one-letter shorthand, its default value and its usage text. -/
structure IntFlag where
  p : IntVar
  name : String
  shorthand : String
  value : Int
  usage : String
  deriving DecidableEq, Repr

/-- The part of the command tree of package `cmd` that migrate_up.go touches: the
subcommands of `migrateCmd` (a command defined elsewhere in the package) and the
flag set of `migrateUpCmd`. -/
structure Registry where
  migrateCmdCommands : List Command
  migrateUpCmdFlags : List IntFlag
  deriving DecidableEq, Repr

/-- Modelled from the spec: `migrateCmd.AddCommand(c)` of the command framework
(cobra, an external library), which makes `c` a subcommand of `migrateCmd`; the
spec names the resulting command `migrate up`. -/
def AddCommand (r : Registry) (c : Command) : Registry :=
  { r with migrateCmdCommands := r.migrateCmdCommands ++ [c] }

/-- Modelled from the spec: `migrateUpCmd.Flags().IntVarP(p, name, shorthand,
value, usage)` of the command framework (cobra, an external library).  It
registers one integer flag reachable under its long name and its shorthand, and
gives the variable behind `p` the default `value` (the spec: "integer, default
0"). -/
def IntVarP {W Conn Mig : Type} (p : IntVar) (name shorthand : String) (value : Int)
    (usage : String) (r : Registry) (s : State W Conn Mig) : Registry × State W Conn Mig :=
  ({ r with migrateUpCmdFlags := r.migrateUpCmdFlags ++
      [{ p := p, name := name, shorthand := shorthand, value := value, usage := usage }] },
   store p value s)

/-- The function `init` (lines 22-25).

```go
func init() {
    migrateCmd.AddCommand(migrateUpCmd)
    migrateUpCmd.Flags().IntVarP(&migrationStepUp, "step", "s", 0,
        "Number of migrations to apply. Use 0 to apply all pending.")
}
``` -/
def init {W Conn Mig : Type} (r : Registry) (s : State W Conn Mig) :
    Registry × State W Conn Mig :=
  IntVarP IntVar.migrationStepUp "step" "s" 0
    "Number of migrations to apply. Use 0 to apply all pending."
    (AddCommand r migrateUpCmd) s

/-- A command-line item after `migrate`: a long flag with its value
(`--name value`), a shorthand flag with its value (`-n value`), or a plain
word.  The conversion of the value text to an integer belongs to the command
framework and is not part of the embedding. -/
inductive Arg where
  | long (name : String) (value : Int) : Arg
  | short (name : String) (value : Int) : Arg
  | word (w : String) : Arg
  deriving DecidableEq, Repr

/-- What a command line led to: the framework rejected it before any handler
ran, it selected a subcommand defined outside migrate_up.go, or the handler of
`up` ran and returned the given `error`. -/
inductive Outcome (Err : Type) where
  | rejected : Outcome Err
  | elsewhere (c : Command) : Outcome Err
  | ran (err : Option Err) : Outcome Err
  deriving DecidableEq, Repr

/-- Modelled from the spec: flag parsing of the command framework (cobra, an
external library).  Each flag item is looked up in the flag set, a long flag by
its name and a shorthand flag by its shorthand, and its value is written through
the address the flag was registered with; plain words are collected as
positional arguments; an item naming no registered flag rejects the command
line. -/
def ParseFlags {W Conn Mig : Type} (flags : List IntFlag) :
    List Arg → State W Conn Mig → Option (State W Conn Mig × List String)
  | [], s => some (s, [])
  | Arg.long n v :: rest, s =>
    match flags.find? (fun f => f.name == n) with
    | some f => ParseFlags flags rest (store f.p v s)
    | none => none
  | Arg.short n v :: rest, s =>
    match flags.find? (fun f => f.shorthand == n) with
    | some f => ParseFlags flags rest (store f.p v s)
    | none => none
  | Arg.word w :: rest, s =>
    match ParseFlags flags rest s with
    | some (s1, ws) => some (s1, w :: ws)
    | none => none

/-- Modelled from the spec: execution of `migrate <items>` by the command
framework (cobra, an external library).  The first item names the subcommand,
found among the subcommands of `migrateCmd` by its `Use` word; for the command
`up` the remaining items are parsed against its flag set and the handler `RunE`
is run with the positional arguments. -/
def Execute {W Conn Mig Err : Type} (env : Collab W Conn Mig Err) (migrationPath : String)
    (r : Registry) (items : List Arg) (s : State W Conn Mig) :
    Outcome Err × State W Conn Mig :=
  match items with
  | Arg.word w :: rest =>
    match r.migrateCmdCommands.find? (fun c => c.Use == w) with
    | some c =>
      if c = migrateUpCmd then
        match ParseFlags r.migrateUpCmdFlags rest s with
        | some (s1, ws) =>
          let out := RunE env migrationPath c ws s1
          (Outcome.ran out.1, out.2)
        | none => (Outcome.rejected, s)
      else (Outcome.elsewhere c, s)
    | none => (Outcome.rejected, s)
  | _ => (Outcome.rejected, s)

/-- A process run of `migrate <items>`: package initialisation (`init`) on the
command tree built elsewhere, then execution of the command line.  `others` are
the subcommands of `migrateCmd` registered before this file's `init` ran. -/
def migrate {W Conn Mig Err : Type} (env : Collab W Conn Mig Err) (migrationPath : String)
    (others : List Command) (items : List Arg) (s : State W Conn Mig) :
    Outcome Err × State W Conn Mig :=
  let i := init { migrateCmdCommands := others, migrateUpCmdFlags := [] } s
  Execute env migrationPath i.1 items i.2

/-- The outcome of running the handler of `up` directly with step value `N`. -/
def ranWithStep {W Conn Mig Err : Type} (env : Collab W Conn Mig Err) (migrationPath : String)
    (N : Int) (s : State W Conn Mig) : Outcome Err × State W Conn Mig :=
  (Outcome.ran (RunE env migrationPath migrateUpCmd [] { s with migrationStepUp := N }).1,
   (RunE env migrationPath migrateUpCmd [] { s with migrationStepUp := N }).2)

/-- The calls the collaborators received during one process run of
`migrate <items>` from `s`. -/
def migrateReceived {W Conn Mig Err : Type} (env : Collab W Conn Mig Err)
    (migrationPath : String) (others : List Command) (items : List Arg)
    (s : State W Conn Mig) : List (Call Conn Mig) :=
  (migrate (recording env) migrationPath others items (observed s)).2.world.2

/-! ## The migration engine behind `UpTo` (spec sections 2, 3 and 6)

`pop.NewFileMigrator` and `UpTo` belong to package `pop` of this repository, a
part that is not in migrate_up.go.  What `migrate up` does to the database is
stated over the engine the spec describes. -/

/-- Modelled from the spec: a MigrationUnit of the data model, with its version
(a monotonic ordered identifier), its name and its up action, an executable
change of the schema that may fail.  The down action plays no part in `migrate
up` and is left out. -/
structure MigrationUnit where
  version : Nat
  name : String
  upAction : List String → Option (List String)

/-- Modelled from the spec: the persistent store, that is the schema the up
actions change and the State Tracker's AppliedRecords, kept as the list of
applied versions in the order of application (the `appliedAt` time stamp is left
out). -/
structure Store where
  schema : List String
  applied : List Nat

/-- Modelled from the spec: the migrator object built by `pop.NewFileMigrator`,
holding the Migration Registry's ordered migration units.  The spec gives a
meaning to step 0 and to "up to N" for a count `N`; for a negative step its
words fix no target count, so the target used then is left open as the field
`negativeTarget` (`none`: no target, `some k`: at most `k`). -/
structure Migrator where
  units : List MigrationUnit
  negativeTarget : Option Nat

/-- Modelled from the spec: the pending units, "Executor intersects with State
Tracker's applied-set": the registered units with no AppliedRecord, in registry
order. -/
def pending (m : Migrator) (db : Store) : List MigrationUnit :=
  m.units.filter (fun u => decide (u.version ∉ db.applied))

/-- Modelled from the spec: the target count of a step: none for step 0 ("apply
all pending"), `N` for a positive `N` ("apply up to N pending migrations"), and
the migrator's open choice for a negative step. -/
def target (m : Migrator) (step : Int) : Option Nat :=
  if step = 0 then none
  else if 0 < step then some step.toNat
  else m.negativeTarget

/-- Whether `count` applied units have reached the target count. -/
def reached : Option Nat → Nat → Bool
  | none, _ => false
  | some n, count => decide (n ≤ count)

/-- Modelled from the spec: the Executor's loop, "applies pending migrations in
order ... up to a target count", recording each success.  `count` is the number
of units applied so far in this run.  Applying a unit runs its up action on the
schema and creates its AppliedRecord.  The loop stops as soon as the count has
reached the target.  A failing up action stops the run with an error naming the
unit and keeps what was applied before it. -/
def applyUnits (tgt : Option Nat) : List MigrationUnit → Nat → Store → Option String × Store
  | [], _, db => (none, db)
  | u :: rest, count, db =>
    if reached tgt count then (none, db)
    else
      match u.upAction db.schema with
      | none => (some u.name, db)
      | some sch =>
        applyUnits tgt rest (count + 1) { schema := sch, applied := db.applied ++ [u.version] }

/-- Modelled from the spec: the migrator's "apply up to N" operation
(`Migrator.UpTo`, in package `pop`, not in migrate_up.go): step 0 "meaning
apply all pending", nonzero N "apply up to N pending migrations". -/
def Migrator.UpTo (m : Migrator) (step : Int) (db : Store) : Option String × Store :=
  applyUnits (target m step) (pending m db) 0 db

/-- The schema obtained by running the up actions of the given units in order,
each on the schema left by the one before; `none` when one of them fails.  This
is what it means for these units to have been applied to a schema. -/
def upActions : List MigrationUnit → List String → Option (List String)
  | [], sch => some sch
  | u :: rest, sch =>
    match u.upAction sch with
    | none => none
    | some sch1 => upActions rest sch1

/-- The collaborators of the handler when the migrator is the engine above; the
connection provider and the constructor stay parameters. -/
def engineEnv {Conn : Type} (getConn : Store → Conn × Store)
    (NewFileMigrator : String → Conn → Store → (Migrator × Option String) × Store) :
    Collab Store Conn Migrator String :=
  { getConn := getConn, NewFileMigrator := NewFileMigrator, UpTo := Migrator.UpTo }

/-- The number of migrations a run of the handler applied: the AppliedRecords
the run created. -/
def appliedCount {Conn : Type} (env : Collab Store Conn Migrator String) (path : String)
    (cmd : Command) (args : List String) (s : State Store Conn Migrator) : Int :=
  ((RunE env path cmd args s).2.world.applied.length : Int) - (s.world.applied.length : Int)

/-- Three migration units; the third one fails on a schema without table
`users`. -/
def demoUnits : List MigrationUnit :=
  [{ version := 1, name := "create_users", upAction := fun sch => some ("users" :: sch) },
   { version := 2, name := "create_posts", upAction := fun sch => some ("posts" :: sch) },
   { version := 3, name := "add_user_email",
     upAction := fun sch => if "users" ∈ sch then some ("users.email" :: sch) else none }]

/-- An engine instance: the connection is a unit value and construction always
succeeds with the units `demoUnits` and the given choice for a negative step,
leaving the store as it is. -/
def demoEngine (negativeTarget : Option Nat) : Collab Store Unit Migrator String :=
  engineEnv (fun db => ((), db))
    (fun _ _ db => (({ units := demoUnits, negativeTarget := negativeTarget }, none), db))

/-- A start state for `demoEngine`: unit 1 is applied already. -/
def demoEngineState (step : Int) : State Store Unit Migrator :=
  { migrationStepUp := step, world := { schema := ["users"], applied := [1] }, calls := [] }

/-! ## A concrete instance used to evaluate the definitions -/

/-- A small collaborator set over `W = Nat` (a counter of the calls that reached
the world), `Conn = Nat`, `Mig = String × Nat` (the path and the connection the
migrator was built from), `Err = String`.  Construction fails exactly on the
path `"missing"`; `UpTo` fails exactly on a negative step. -/
def demoEnv : Collab Nat Nat (String × Nat) String where
  getConn := fun w => (7, w + 1)
  NewFileMigrator := fun path conn w =>
    (((path, conn), if path = "missing" then some "no such directory" else none), w + 1)
  UpTo := fun _ step w => (if step < 0 then some "negative step" else none, w + 1)

/-- A start state for `demoEnv` with the given step value. -/
def demoState (step : Int) : State Nat Nat (String × Nat) :=
  { migrationStepUp := step, world := 0, calls := [] }

/-- A collaborator set whose world is the ledger of the steps `UpTo` was run
with: `Conn = Nat`, `Mig = String × Nat`, `Err = String`; construction always
succeeds and `UpTo` fails exactly on a negative step. -/
def ledgerEnv : Collab (List Int) Nat (String × Nat) String where
  getConn := fun w => (7, w)
  NewFileMigrator := fun path conn w => (((path, conn), none), w)
  UpTo := fun _ step w => (if step < 0 then some "negative step" else none, w ++ [step])

/-- A start state for `ledgerEnv` with the given step value and an empty
ledger. -/
def ledgerState (step : Int) : State (List Int) Nat (String × Nat) :=
  { migrationStepUp := step, world := [], calls := [] }

/-! ## Theorems about the handler -/

section Handler

variable {W Conn Mig Err : Type}

theorem RunE_of_built_none (env : Collab W Conn Mig Err) (path : String) (cmd : Command)
    (args : List String) (s : State W Conn Mig) (h : (built env path s).2 = none) :
    RunE env path cmd args s =
      ((env.UpTo (built env path s).1 s.migrationStepUp (worldBuilt env path s)).1,
       { migrationStepUp := s.migrationStepUp,
         world := (env.UpTo (built env path s).1 s.migrationStepUp (worldBuilt env path s)).2,
         calls := s.calls ++ [Call.getConn] ++ [Call.NewFileMigrator path (connOf env s)]
                   ++ [Call.UpTo (built env path s).1 s.migrationStepUp] }) := by
  unfold built at h
  simp only [RunE, built, worldBuilt, connOf]
  rw [h]

theorem RunE_of_built_some (env : Collab W Conn Mig Err) (path : String) (cmd : Command)
    (args : List String) (s : State W Conn Mig) (e : Err) (h : (built env path s).2 = some e) :
    RunE env path cmd args s =
      (some e,
       { migrationStepUp := s.migrationStepUp,
         world := worldBuilt env path s,
         calls := s.calls ++ [Call.getConn] ++ [Call.NewFileMigrator path (connOf env s)] }) := by
  unfold built at h
  simp only [RunE, built, worldBuilt, connOf]
  rw [h]

theorem runCalls_of_built_none (env : Collab W Conn Mig Err) (path : String) (cmd : Command)
    (args : List String) (s : State W Conn Mig) (h : (built env path s).2 = none) :
    runCalls env path cmd args s =
      [Call.getConn, Call.NewFileMigrator path (connOf env s),
       Call.UpTo (built env path s).1 s.migrationStepUp] := by
  simp [runCalls, RunE_of_built_none env path cmd args s h]

theorem runCalls_of_built_some (env : Collab W Conn Mig Err) (path : String) (cmd : Command)
    (args : List String) (s : State W Conn Mig) (e : Err) (h : (built env path s).2 = some e) :
    runCalls env path cmd args s =
      [Call.getConn, Call.NewFileMigrator path (connOf env s)] := by
  simp [runCalls, RunE_of_built_some env path cmd args s e h]

theorem receivedCalls_of_built_none (env : Collab W Conn Mig Err) (path : String)
    (cmd : Command) (args : List String) (s : State W Conn Mig)
    (h : (built env path s).2 = none) :
    receivedCalls env path cmd args s =
      [Call.getConn, Call.NewFileMigrator path (connOf env s),
       Call.UpTo (built env path s).1 s.migrationStepUp] := by
  have h1 : (built (recording env) path (observed s)).2 = none := h
  simp only [receivedCalls, RunE_of_built_none (recording env) path cmd args (observed s) h1]
  rfl

theorem receivedCalls_of_built_some (env : Collab W Conn Mig Err) (path : String)
    (cmd : Command) (args : List String) (s : State W Conn Mig) (e : Err)
    (h : (built env path s).2 = some e) :
    receivedCalls env path cmd args s =
      [Call.getConn, Call.NewFileMigrator path (connOf env s)] := by
  have h1 : (built (recording env) path (observed s)).2 = some e := h
  simp only [receivedCalls, RunE_of_built_some (recording env) path cmd args (observed s) e h1]
  rfl

/-- C1: when `migrationStepUp` holds `N` (any integer, of either sign or zero)
and `pop.NewFileMigrator` succeeds, the handler runs `UpTo` on the migrator just
built with argument exactly `N`: what it returns and the world it leaves are
those of `UpTo(N)` run on the world the constructor left, and the calls the
collaborators receive are `getConn()`, `pop.NewFileMigrator(migrationPath,
conn)` and `UpTo(N)`, in this order. -/
theorem RunE_calls_UpTo_with_step (env : Collab W Conn Mig Err) (path : String)
    (cmd : Command) (args : List String) (s : State W Conn Mig) (N : Int)
    (hN : s.migrationStepUp = N) (hok : (built env path s).2 = none) :
    (RunE env path cmd args s).1 =
      (env.UpTo (built env path s).1 N (worldBuilt env path s)).1 ∧
    (RunE env path cmd args s).2.world =
      (env.UpTo (built env path s).1 N (worldBuilt env path s)).2 ∧
    receivedCalls env path cmd args s =
      [Call.getConn, Call.NewFileMigrator path (connOf env s),
       Call.UpTo (built env path s).1 N] ∧
    runCalls env path cmd args s =
      [Call.getConn, Call.NewFileMigrator path (connOf env s),
       Call.UpTo (built env path s).1 N] := by
  rw [receivedCalls_of_built_none env path cmd args s hok,
    runCalls_of_built_none env path cmd args s hok,
    RunE_of_built_none env path cmd args s hok, hN]
  exact ⟨rfl, rfl, rfl, rfl⟩

/-- C3: when `pop.NewFileMigrator` returns a non-nil error `e`, the handler
returns exactly `e`, its only calls are `getConn()` and the constructor, so
`UpTo` is not called, and the world is left as the constructor left it. -/
theorem RunE_returns_construction_error (env : Collab W Conn Mig Err) (path : String)
    (cmd : Command) (args : List String) (s : State W Conn Mig) (e : Err)
    (herr : (built env path s).2 = some e) :
    (RunE env path cmd args s).1 = some e ∧
    runCalls env path cmd args s = [Call.getConn, Call.NewFileMigrator path (connOf env s)] ∧
    (∀ c ∈ runCalls env path cmd args s, c.isUpTo = false) ∧
    (RunE env path cmd args s).2.world = worldBuilt env path s := by
  refine ⟨?_, runCalls_of_built_some env path cmd args s e herr, ?_, ?_⟩
  · rw [RunE_of_built_some env path cmd args s e herr]
  · rw [runCalls_of_built_some env path cmd args s e herr]
    intro c hc
    simp only [List.mem_cons, List.mem_singleton, List.not_mem_nil, or_false] at hc
    rcases hc with rfl | rfl <;> rfl
  · rw [RunE_of_built_some env path cmd args s e herr]

/-- C4: when `pop.NewFileMigrator` succeeds, the handler returns exactly what the
delegated call `mig.UpTo(migrationStepUp)` returns: `nil` if and only if `UpTo`
returns `nil`, and the same error otherwise. -/
theorem RunE_returns_UpTo_result (env : Collab W Conn Mig Err) (path : String)
    (cmd : Command) (args : List String) (s : State W Conn Mig)
    (hok : (built env path s).2 = none) :
    (RunE env path cmd args s).1 =
      (env.UpTo (built env path s).1 s.migrationStepUp (worldBuilt env path s)).1 ∧
    ((RunE env path cmd args s).1 = none ↔
      (env.UpTo (built env path s).1 s.migrationStepUp (worldBuilt env path s)).1 = none) ∧
    (∀ e : Err, (RunE env path cmd args s).1 = some e ↔
      (env.UpTo (built env path s).1 s.migrationStepUp (worldBuilt env path s)).1 = some e) := by
  rw [RunE_of_built_none env path cmd args s hok]
  exact ⟨rfl, Iff.rfl, fun _ => Iff.rfl⟩

/-- C7: in every run the collaborators receive `getConn` exactly once, then
`pop.NewFileMigrator` exactly once, with `migrationPath` and the connection that
`getConn` returned, and `UpTo` at most once: exactly once when construction
succeeded and not at all when it failed.  The world the run leaves is the one
left by that last call, so nothing is repeated after a failure.  The calls the
handler logs are the calls the collaborators receive. -/
theorem RunE_call_counts (env : Collab W Conn Mig Err) (path : String)
    (cmd : Command) (args : List String) (s : State W Conn Mig) :
    receivedCalls env path cmd args s =
      [Call.getConn, Call.NewFileMigrator path (connOf env s)] ++
        (match (built env path s).2 with
         | none => [Call.UpTo (built env path s).1 s.migrationStepUp]
         | some _ => []) ∧
    (receivedCalls env path cmd args s).countP Call.isGetConn = 1 ∧
    (receivedCalls env path cmd args s).countP Call.isNewFileMigrator = 1 ∧
    (receivedCalls env path cmd args s).countP Call.isUpTo ≤ 1 ∧
    ((receivedCalls env path cmd args s).countP Call.isUpTo = 1 ↔
      (built env path s).2 = none) ∧
    (RunE env path cmd args s).2.world =
      (match (built env path s).2 with
       | none => (env.UpTo (built env path s).1 s.migrationStepUp (worldBuilt env path s)).2
       | some _ => worldBuilt env path s) ∧
    runCalls env path cmd args s = receivedCalls env path cmd args s := by
  cases h : (built env path s).2 with
  | none =>
    rw [receivedCalls_of_built_none env path cmd args s h,
      runCalls_of_built_none env path cmd args s h,
      RunE_of_built_none env path cmd args s h]
    simp [List.countP_cons, Call.isGetConn, Call.isNewFileMigrator, Call.isUpTo]
  | some e =>
    rw [receivedCalls_of_built_some env path cmd args s e h,
      runCalls_of_built_some env path cmd args s e h,
      RunE_of_built_some env path cmd args s e h]
    simp [List.countP_cons, Call.isGetConn, Call.isNewFileMigrator, Call.isUpTo]

/-- C8: the handler ignores its command parameter and its positional arguments:
with the same collaborators, migration path and start state, any two commands
and argument lists give the same returned error, the same final state and the
same calls. -/
theorem RunE_ignores_cmd_and_args (env : Collab W Conn Mig Err) (path : String)
    (cmd1 cmd2 : Command) (args1 args2 : List String) (s : State W Conn Mig) :
    RunE env path cmd1 args1 s = RunE env path cmd2 args2 s ∧
    runCalls env path cmd1 args1 s = runCalls env path cmd2 args2 s :=
  ⟨rfl, rfl⟩

/-- C9: the handler only reads the step variable: after every run, failed or
not, `migrationStepUp` holds the value it held before. -/
theorem RunE_preserves_migrationStepUp (env : Collab W Conn Mig Err) (path : String)
    (cmd : Command) (args : List String) (s : State W Conn Mig) :
    (RunE env path cmd args s).2.migrationStepUp = s.migrationStepUp := by
  cases h : (built env path s).2 with
  | none => rw [RunE_of_built_none env path cmd args s h]
  | some e => rw [RunE_of_built_some env path cmd args s e h]

end Handler

/-! ## Theorems about registration and the command line -/

section CommandLine

variable {W Conn Mig Err : Type}

theorem find_up (others : List Command) (h : ∀ c ∈ others, c.Use ≠ "up") :
    (others ++ [migrateUpCmd]).find? (fun c => c.Use == "up") = some migrateUpCmd := by
  have hnone : others.find? (fun c => c.Use == "up") = none := by
    rw [List.find?_eq_none]
    intro c hc
    simpa using h c hc
  rw [List.find?_append, hnone]
  rfl

theorem migrate_up_eq (env : Collab W Conn Mig Err) (path : String) (others : List Command)
    (rest : List Arg) (s : State W Conn Mig) (h : ∀ c ∈ others, c.Use ≠ "up") :
    migrate env path others (Arg.word "up" :: rest) s =
      match ParseFlags (@init W Conn Mig
              { migrateCmdCommands := others, migrateUpCmdFlags := [] } s).1.migrateUpCmdFlags
              rest { s with migrationStepUp := 0 } with
      | some (s1, ws) =>
        (Outcome.ran (RunE env path migrateUpCmd ws s1).1, (RunE env path migrateUpCmd ws s1).2)
      | none => (Outcome.rejected, { s with migrationStepUp := 0 }) := by
  simp only [migrate, Execute, init, IntVarP, AddCommand, store, find_up others h, if_true]

theorem ranWithStep_calls (env : Collab W Conn Mig Err) (path : String) (N : Int)
    (s : State W Conn Mig) :
    (ranWithStep env path N s).2.calls =
      s.calls ++ [Call.getConn, Call.NewFileMigrator path (connOf env s)] ++
        (match (built env path s).2 with
         | none => [Call.UpTo (built env path s).1 N]
         | some _ => []) := by
  have hb : built env path { s with migrationStepUp := N } = built env path s := rfl
  cases h : (built env path s).2 with
  | none =>
    simp [ranWithStep,
      RunE_of_built_none env path migrateUpCmd [] { s with migrationStepUp := N } (hb ▸ h)]
    exact ⟨rfl, rfl⟩
  | some e =>
    simp [ranWithStep,
      RunE_of_built_some env path migrateUpCmd [] { s with migrationStepUp := N } e (hb ▸ h)]
    rfl

theorem migrate_up_plain (env : Collab W Conn Mig Err) (path : String)
    (others : List Command) (s : State W Conn Mig) (h : ∀ c ∈ others, c.Use ≠ "up") :
    migrate env path others [Arg.word "up"] s = ranWithStep env path 0 s := by
  rw [migrate_up_eq env path others [] s h]
  rfl

theorem migrate_up_long (env : Collab W Conn Mig Err) (path : String)
    (others : List Command) (s : State W Conn Mig) (N : Int)
    (h : ∀ c ∈ others, c.Use ≠ "up") :
    migrate env path others [Arg.word "up", Arg.long "step" N] s =
      ranWithStep env path N s := by
  rw [migrate_up_eq env path others [Arg.long "step" N] s h]
  rfl

theorem migrate_up_short (env : Collab W Conn Mig Err) (path : String)
    (others : List Command) (s : State W Conn Mig) (N : Int)
    (h : ∀ c ∈ others, c.Use ≠ "up") :
    migrate env path others [Arg.word "up", Arg.short "s" N] s =
      ranWithStep env path N s := by
  rw [migrate_up_eq env path others [Arg.short "s" N] s h]
  rfl

theorem ranWithStep_received (env : Collab W Conn Mig Err) (path : String) (N : Int)
    (s : State W Conn Mig) :
    (ranWithStep (recording env) path N (observed s)).2.world.2 =
      [Call.getConn, Call.NewFileMigrator path (connOf env s)] ++
        (match (built env path s).2 with
         | none => [Call.UpTo (built env path s).1 N]
         | some _ => []) := by
  have hrec : (ranWithStep (recording env) path N (observed s)).2.world.2 =
      receivedCalls env path migrateUpCmd [] { s with migrationStepUp := N } := rfl
  have hb : built env path { s with migrationStepUp := N } = built env path s := rfl
  rw [hrec]
  cases h : (built env path s).2 with
  | none =>
    rw [receivedCalls_of_built_none env path migrateUpCmd [] { s with migrationStepUp := N }
      (hb ▸ h)]
    rfl
  | some e =>
    rw [receivedCalls_of_built_some env path migrateUpCmd [] { s with migrationStepUp := N } e
      (hb ▸ h)]
    rfl

theorem ranWithStep_of_built_none (env : Collab W Conn Mig Err) (path : String) (N : Int)
    (s : State W Conn Mig) (hok : (built env path s).2 = none) :
    (ranWithStep env path N s).1 =
      Outcome.ran (env.UpTo (built env path s).1 N (worldBuilt env path s)).1 ∧
    (ranWithStep env path N s).2.world =
      (env.UpTo (built env path s).1 N (worldBuilt env path s)).2 := by
  have hb : (built env path { s with migrationStepUp := N }).2 = none := hok
  simp only [ranWithStep,
    RunE_of_built_none env path migrateUpCmd [] { s with migrationStepUp := N } hb]
  exact ⟨rfl, rfl⟩

/-- C2: `init` leaves `migrationStepUp` at the registered default 0, so `migrate
up` without the step flag does exactly what `migrate up --step 0` does.  In both
runs the calls the collaborators receive are `getConn()`, the constructor and,
when construction succeeds, `UpTo(0)`; what the run returns and the world it
leaves are then those of `UpTo(0)` run on the world the constructor left. -/
theorem omitted_step_runs_as_step_zero (env : Collab W Conn Mig Err) (path : String)
    (others : List Command) (s : State W Conn Mig) (h : ∀ c ∈ others, c.Use ≠ "up") :
    (@init W Conn Mig
      { migrateCmdCommands := others, migrateUpCmdFlags := [] } s).2.migrationStepUp = 0 ∧
    migrate env path others [Arg.word "up"] s =
      migrate env path others [Arg.word "up", Arg.long "step" 0] s ∧
    migrateReceived env path others [Arg.word "up"] s =
      [Call.getConn, Call.NewFileMigrator path (connOf env s)] ++
        (match (built env path s).2 with
         | none => [Call.UpTo (built env path s).1 0]
         | some _ => []) ∧
    migrateReceived env path others [Arg.word "up", Arg.long "step" 0] s =
      migrateReceived env path others [Arg.word "up"] s ∧
    ((built env path s).2 = none →
      (migrate env path others [Arg.word "up"] s).1 =
        Outcome.ran (env.UpTo (built env path s).1 0 (worldBuilt env path s)).1 ∧
      (migrate env path others [Arg.word "up"] s).2.world =
        (env.UpTo (built env path s).1 0 (worldBuilt env path s)).2) ∧
    migrate env path others [Arg.word "up"] s = ranWithStep env path 0 s ∧
    (migrate env path others [Arg.word "up"] s).2.calls =
      s.calls ++ [Call.getConn, Call.NewFileMigrator path (connOf env s)] ++
        (match (built env path s).2 with
         | none => [Call.UpTo (built env path s).1 0]
         | some _ => []) := by
  have h1 := migrate_up_plain env path others s h
  have h2 := migrate_up_long env path others s 0 h
  have r1 : migrateReceived env path others [Arg.word "up"] s =
      (ranWithStep (recording env) path 0 (observed s)).2.world.2 := by
    unfold migrateReceived
    rw [migrate_up_plain (recording env) path others (observed s) h]
  have r2 : migrateReceived env path others [Arg.word "up", Arg.long "step" 0] s =
      (ranWithStep (recording env) path 0 (observed s)).2.world.2 := by
    unfold migrateReceived
    rw [migrate_up_long (recording env) path others (observed s) 0 h]
  refine ⟨rfl, ?_, ?_, ?_, ?_, h1, ?_⟩
  · rw [h1, h2]
  · rw [r1, ranWithStep_received]
  · rw [r1, r2]
  · intro hok
    rw [h1]
    exact ranWithStep_of_built_none env path 0 s hok
  · rw [h1, ranWithStep_calls]

/-- C5: `init` makes `migrateUpCmd` (the command `up`) a subcommand of
`migrateCmd` and registers a single flag whose long name is `step`, whose
shorthand is `s` and whose target is `migrationStepUp`; hence for every integer
`N`, `migrate up --step N` and `migrate up -s N` do the same.  In both runs the
calls the collaborators receive are `getConn()`, the constructor and, when
construction succeeds, `UpTo(N)`; what the run returns and the world it leaves
are then those of `UpTo(N)` run on the world the constructor left. -/
theorem long_and_short_step_flag_agree (env : Collab W Conn Mig Err) (path : String)
    (others : List Command) (s : State W Conn Mig) (N : Int)
    (h : ∀ c ∈ others, c.Use ≠ "up") :
    migrateUpCmd ∈ (@init W Conn Mig
      { migrateCmdCommands := others, migrateUpCmdFlags := [] } s).1.migrateCmdCommands ∧
    (@init W Conn Mig
      { migrateCmdCommands := others, migrateUpCmdFlags := [] } s).1.migrateUpCmdFlags =
      [{ p := IntVar.migrationStepUp, name := "step", shorthand := "s", value := 0,
         usage := "Number of migrations to apply. Use 0 to apply all pending." }] ∧
    migrate env path others [Arg.word "up", Arg.long "step" N] s =
      migrate env path others [Arg.word "up", Arg.short "s" N] s ∧
    migrateReceived env path others [Arg.word "up", Arg.long "step" N] s =
      [Call.getConn, Call.NewFileMigrator path (connOf env s)] ++
        (match (built env path s).2 with
         | none => [Call.UpTo (built env path s).1 N]
         | some _ => []) ∧
    migrateReceived env path others [Arg.word "up", Arg.short "s" N] s =
      [Call.getConn, Call.NewFileMigrator path (connOf env s)] ++
        (match (built env path s).2 with
         | none => [Call.UpTo (built env path s).1 N]
         | some _ => []) ∧
    ((built env path s).2 = none →
      (migrate env path others [Arg.word "up", Arg.short "s" N] s).1 =
        Outcome.ran (env.UpTo (built env path s).1 N (worldBuilt env path s)).1 ∧
      (migrate env path others [Arg.word "up", Arg.short "s" N] s).2.world =
        (env.UpTo (built env path s).1 N (worldBuilt env path s)).2) ∧
    migrate env path others [Arg.word "up", Arg.long "step" N] s = ranWithStep env path N s ∧
    (migrate env path others [Arg.word "up", Arg.short "s" N] s).2.calls =
      s.calls ++ [Call.getConn, Call.NewFileMigrator path (connOf env s)] ++
        (match (built env path s).2 with
         | none => [Call.UpTo (built env path s).1 N]
         | some _ => []) := by
  have h1 := migrate_up_long env path others s N h
  have h2 := migrate_up_short env path others s N h
  have r1 : migrateReceived env path others [Arg.word "up", Arg.long "step" N] s =
      (ranWithStep (recording env) path N (observed s)).2.world.2 := by
    unfold migrateReceived
    rw [migrate_up_long (recording env) path others (observed s) N h]
  have r2 : migrateReceived env path others [Arg.word "up", Arg.short "s" N] s =
      (ranWithStep (recording env) path N (observed s)).2.world.2 := by
    unfold migrateReceived
    rw [migrate_up_short (recording env) path others (observed s) N h]
  refine ⟨?_, rfl, ?_, ?_, ?_, ?_, h1, ?_⟩
  · simp [init, IntVarP, AddCommand]
  · rw [h1, h2]
  · rw [r1, ranWithStep_received]
  · rw [r2, ranWithStep_received]
  · intro hok
    rw [h2]
    exact ranWithStep_of_built_none env path N s hok
  · rw [h2, ranWithStep_calls]

end CommandLine

/-! ## Theorems about the migration engine -/

section Engine

theorem applyUnits_effect (tgt : Option Nat) (l : List MigrationUnit) :
    ∀ (count : Nat) (db db1 : Store), applyUnits tgt l count db = (none, db1) →
      db1.applied = db.applied ++
        ((l.take (match tgt with
                  | none => l.length
                  | some n => n - count)).map MigrationUnit.version) ∧
      upActions (l.take (match tgt with
                         | none => l.length
                         | some n => n - count)) db.schema = some db1.schema := by
  induction l with
  | nil =>
    intro count db db1 h
    simp only [applyUnits, Prod.mk.injEq, true_and] at h
    simp [h, upActions]
  | cons u rest ih =>
    intro count db db1 h
    unfold applyUnits at h
    cases hstop : reached tgt count with
    | true =>
      rw [hstop] at h
      simp only [if_true, Prod.mk.injEq, true_and] at h
      cases tgt with
      | none => simp [reached] at hstop
      | some n =>
        have hn : n ≤ count := by simpa [reached] using hstop
        have hk : n - count = 0 := by omega
        simp [hk, ← h, upActions]
    | false =>
      rw [hstop] at h
      simp only [Bool.false_eq_true, if_false] at h
      cases hact : u.upAction db.schema with
      | none => simp [hact] at h
      | some sch =>
        simp only [hact] at h
        have hrec := ih (count + 1) _ db1 h
        cases tgt with
        | none =>
          simp only [List.take_length] at hrec ⊢
          refine ⟨by simp [hrec.1], ?_⟩
          simp only [upActions, hact]
          exact hrec.2
        | some n =>
          have hn : count < n := by
            by_contra hc
            simp [reached] at hstop
            omega
          have hk : n - count = (n - (count + 1)) + 1 := by omega
          simp only at hrec ⊢
          rw [hk, List.take_succ_cons]
          refine ⟨by simp [hrec.1], ?_⟩
          simp only [upActions, hact]
          exact hrec.2

theorem applyUnits_succeeds (tgt : Option Nat) (l : List MigrationUnit)
    (hact : ∀ u ∈ l, ∀ sch, u.upAction sch ≠ none) :
    ∀ (count : Nat) (db : Store), (applyUnits tgt l count db).1 = none := by
  induction l with
  | nil => intro count db; rfl
  | cons u rest ih =>
    intro count db
    unfold applyUnits
    cases hstop : reached tgt count with
    | true => simp
    | false =>
      simp only [Bool.false_eq_true, if_false]
      cases hu : u.upAction db.schema with
      | none => exact absurd hu (hact u (List.mem_cons_self _ _) db.schema)
      | some sch =>
        simp only []
        exact ih (fun v hv => hact v (List.mem_cons_of_mem _ hv)) _ _

theorem pending_after_all (m : Migrator) (db db1 : Store)
    (h : db1.applied = db.applied ++ (pending m db).map MigrationUnit.version) :
    pending m db1 = [] := by
  unfold pending
  rw [List.filter_eq_nil_iff]
  intro u hu
  simp only [decide_eq_true_eq, not_not, h, List.mem_append, List.mem_map]
  by_cases hv : u.version ∈ db.applied
  · exact Or.inl hv
  · refine Or.inr ⟨u, ?_, rfl⟩
    unfold pending
    simp [List.mem_filter, hu, hv]

/-- C6, as amended: with the migrator of the spec's engine, a run of the `up`
handler whose construction succeeded returns nil whenever no up action of a
pending unit can fail, and a run that returned nil has, for step 0, applied all
pending migrations (their up actions were run in order on the schema, their
AppliedRecords were created, none is pending any more), and for a positive step
`N`, applied the first `N` pending migrations in the same way, or all of them
when fewer than `N` are pending, so that at most `N` were applied. -/
theorem migrate_up_applies_pending {Conn : Type} (getConn : Store → Conn × Store)
    (NewFileMigrator : String → Conn → Store → (Migrator × Option String) × Store)
    (path : String) (cmd : Command) (args : List String) (s : State Store Conn Migrator)
    (hok : (built (engineEnv getConn NewFileMigrator) path s).2 = none) :
    ((∀ u ∈ pending (built (engineEnv getConn NewFileMigrator) path s).1
               (worldBuilt (engineEnv getConn NewFileMigrator) path s),
        ∀ sch, u.upAction sch ≠ none) →
      (RunE (engineEnv getConn NewFileMigrator) path cmd args s).1 = none) ∧
    ((RunE (engineEnv getConn NewFileMigrator) path cmd args s).1 = none →
      (s.migrationStepUp = 0 →
        upActions
            (pending (built (engineEnv getConn NewFileMigrator) path s).1
              (worldBuilt (engineEnv getConn NewFileMigrator) path s))
            (worldBuilt (engineEnv getConn NewFileMigrator) path s).schema =
          some (RunE (engineEnv getConn NewFileMigrator) path cmd args s).2.world.schema ∧
        (RunE (engineEnv getConn NewFileMigrator) path cmd args s).2.world.applied =
          (worldBuilt (engineEnv getConn NewFileMigrator) path s).applied ++
            (pending (built (engineEnv getConn NewFileMigrator) path s).1
              (worldBuilt (engineEnv getConn NewFileMigrator) path s)).map
              MigrationUnit.version ∧
        pending (built (engineEnv getConn NewFileMigrator) path s).1
          (RunE (engineEnv getConn NewFileMigrator) path cmd args s).2.world = []) ∧
      (0 < s.migrationStepUp →
        upActions
            ((pending (built (engineEnv getConn NewFileMigrator) path s).1
              (worldBuilt (engineEnv getConn NewFileMigrator) path s)).take
              s.migrationStepUp.toNat)
            (worldBuilt (engineEnv getConn NewFileMigrator) path s).schema =
          some (RunE (engineEnv getConn NewFileMigrator) path cmd args s).2.world.schema ∧
        (RunE (engineEnv getConn NewFileMigrator) path cmd args s).2.world.applied =
          (worldBuilt (engineEnv getConn NewFileMigrator) path s).applied ++
            ((pending (built (engineEnv getConn NewFileMigrator) path s).1
              (worldBuilt (engineEnv getConn NewFileMigrator) path s)).take
              s.migrationStepUp.toNat).map MigrationUnit.version ∧
        (((pending (built (engineEnv getConn NewFileMigrator) path s).1
              (worldBuilt (engineEnv getConn NewFileMigrator) path s)).take
              s.migrationStepUp.toNat).length : Int) ≤ s.migrationStepUp)) := by
  rw [RunE_of_built_none (engineEnv getConn NewFileMigrator) path cmd args s hok]
  generalize (built (engineEnv getConn NewFileMigrator) path s).1 = m
  generalize worldBuilt (engineEnv getConn NewFileMigrator) path s = db
  have hU : (engineEnv getConn NewFileMigrator).UpTo m s.migrationStepUp db =
      applyUnits (target m s.migrationStepUp) (pending m db) 0 db := rfl
  simp only [hU]
  refine ⟨fun hact => applyUnits_succeeds _ _ hact 0 db, fun hret => ?_⟩
  have hpair : applyUnits (target m s.migrationStepUp) (pending m db) 0 db =
      (none, (applyUnits (target m s.migrationStepUp) (pending m db) 0 db).2) := by
    rw [← hret]
  have heff := applyUnits_effect _ _ 0 db _ hpair
  constructor
  · intro h0
    have ht : target m s.migrationStepUp = none := by simp [target, h0]
    rw [ht] at heff ⊢
    simp only [List.take_length] at heff
    exact ⟨heff.2, heff.1, pending_after_all m db _ heff.1⟩
  · intro hpos
    have ht : target m s.migrationStepUp = some s.migrationStepUp.toNat := by
      have h0 : s.migrationStepUp ≠ 0 := by omega
      simp [target, h0, hpos]
    rw [ht] at heff ⊢
    simp only [Nat.sub_zero] at heff
    refine ⟨heff.2, heff.1, ?_⟩
    have hlen := List.length_take_le s.migrationStepUp.toNat (pending m db)
    omega

end Engine

/-! ## Evaluations at concrete inputs -/

/-- C1 at a negative step: the step `-3` reaches `UpTo` unchanged, as the
ledger of the steps `UpTo` was run with and the returned error show. -/
theorem RunE_calls_UpTo_with_step_witness :
    (ledgerState (-3)).migrationStepUp = -3 ∧
    (built ledgerEnv "migrations" (ledgerState (-3))).2 = none ∧
    (RunE ledgerEnv "migrations" migrateUpCmd ["x"] (ledgerState (-3))).1 =
      some "negative step" ∧
    (RunE ledgerEnv "migrations" migrateUpCmd ["x"] (ledgerState (-3))).2.world = [-3] ∧
    receivedCalls ledgerEnv "migrations" migrateUpCmd ["x"] (ledgerState (-3)) =
      [Call.getConn, Call.NewFileMigrator "migrations" 7, Call.UpTo ("migrations", 7) (-3)] ∧
    runCalls ledgerEnv "migrations" migrateUpCmd ["x"] (ledgerState (-3)) =
      [Call.getConn, Call.NewFileMigrator "migrations" 7, Call.UpTo ("migrations", 7) (-3)] :=
  ⟨rfl, rfl,
   RunE_calls_UpTo_with_step ledgerEnv "migrations" migrateUpCmd ["x"] (ledgerState (-3)) (-3)
     rfl rfl⟩

/-- C3 at a failing construction. -/
theorem RunE_returns_construction_error_witness :
    (built demoEnv "missing" (demoState 2)).2 = some "no such directory" ∧
    (RunE demoEnv "missing" migrateUpCmd [] (demoState 2)).1 = some "no such directory" ∧
    runCalls demoEnv "missing" migrateUpCmd [] (demoState 2) =
      [Call.getConn, Call.NewFileMigrator "missing" 7] ∧
    (∀ c ∈ runCalls demoEnv "missing" migrateUpCmd [] (demoState 2), c.isUpTo = false) ∧
    (RunE demoEnv "missing" migrateUpCmd [] (demoState 2)).2.world = 2 :=
  ⟨by decide,
   RunE_returns_construction_error demoEnv "missing" migrateUpCmd [] (demoState 2)
     "no such directory" (by decide)⟩

/-- C4 at a run whose delegated call fails. -/
theorem RunE_returns_UpTo_result_witness :
    (built demoEnv "migrations" (demoState (-1))).2 = none ∧
    (RunE demoEnv "migrations" migrateUpCmd [] (demoState (-1))).1 = some "negative step" :=
  ⟨by decide,
   (RunE_returns_UpTo_result demoEnv "migrations" migrateUpCmd [] (demoState (-1))
     (by decide)).1⟩

/-- C2 evaluated: without a step flag `UpTo` is run with step 0, whatever the
variable held before `init`: the ledger of the steps `UpTo` was run with is
`[0]`. -/
theorem omitted_step_runs_as_step_zero_witness :
    (∀ c ∈ [({ Use := "down", Short := "" } : Command), { Use := "status", Short := "" }],
      c.Use ≠ "up") ∧
    (built ledgerEnv "migrations" (ledgerState 5)).2 = none ∧
    migrateReceived ledgerEnv "migrations"
        [{ Use := "down", Short := "" }, { Use := "status", Short := "" }]
        [Arg.word "up"] (ledgerState 5) =
      [Call.getConn, Call.NewFileMigrator "migrations" 7, Call.UpTo ("migrations", 7) 0] ∧
    (migrate ledgerEnv "migrations"
        [{ Use := "down", Short := "" }, { Use := "status", Short := "" }]
        [Arg.word "up"] (ledgerState 5)).1 = Outcome.ran none ∧
    (migrate ledgerEnv "migrations"
        [{ Use := "down", Short := "" }, { Use := "status", Short := "" }]
        [Arg.word "up"] (ledgerState 5)).2.world = [0] :=
  ⟨by decide, rfl,
   (omitted_step_runs_as_step_zero ledgerEnv "migrations"
      [{ Use := "down", Short := "" }, { Use := "status", Short := "" }] (ledgerState 5)
      (by decide)).2.2.1,
   (omitted_step_runs_as_step_zero ledgerEnv "migrations"
      [{ Use := "down", Short := "" }, { Use := "status", Short := "" }] (ledgerState 5)
      (by decide)).2.2.2.2.1 rfl⟩

/-- C5 evaluated: `-s -4` runs `UpTo` with step `-4`: the ledger of the steps
`UpTo` was run with is `[-4]` and the run returns the error of `UpTo(-4)`. -/
theorem long_and_short_step_flag_agree_witness :
    (∀ c ∈ [({ Use := "down", Short := "" } : Command), { Use := "status", Short := "" }],
      c.Use ≠ "up") ∧
    (built ledgerEnv "migrations" (ledgerState 5)).2 = none ∧
    migrateReceived ledgerEnv "migrations"
        [{ Use := "down", Short := "" }, { Use := "status", Short := "" }]
        [Arg.word "up", Arg.short "s" (-4)] (ledgerState 5) =
      [Call.getConn, Call.NewFileMigrator "migrations" 7, Call.UpTo ("migrations", 7) (-4)] ∧
    (migrate ledgerEnv "migrations"
        [{ Use := "down", Short := "" }, { Use := "status", Short := "" }]
        [Arg.word "up", Arg.short "s" (-4)] (ledgerState 5)).1 =
      Outcome.ran (some "negative step") ∧
    (migrate ledgerEnv "migrations"
        [{ Use := "down", Short := "" }, { Use := "status", Short := "" }]
        [Arg.word "up", Arg.short "s" (-4)] (ledgerState 5)).2.world = [-4] :=
  ⟨by decide, rfl,
   (long_and_short_step_flag_agree ledgerEnv "migrations"
      [{ Use := "down", Short := "" }, { Use := "status", Short := "" }] (ledgerState 5) (-4)
      (by decide)).2.2.2.2.1,
   (long_and_short_step_flag_agree ledgerEnv "migrations"
      [{ Use := "down", Short := "" }, { Use := "status", Short := "" }] (ledgerState 5) (-4)
      (by decide)).2.2.2.2.2.1 rfl⟩

/-- C6 evaluated: with versions 2 and 3 pending, step 1 runs the up action of
version 2 only and records it. -/
theorem migrate_up_applies_pending_witness :
    (built (demoEngine none) "migrations" (demoEngineState 1)).2 = none ∧
    (RunE (demoEngine none) "migrations" migrateUpCmd [] (demoEngineState 1)).1 = none ∧
    (0 : Int) < (demoEngineState 1).migrationStepUp ∧
    (RunE (demoEngine none) "migrations" migrateUpCmd [] (demoEngineState 1)).2.world.schema =
      ["posts", "users"] ∧
    (RunE (demoEngine none) "migrations" migrateUpCmd [] (demoEngineState 1)).2.world.applied =
      [1, 2] :=
  ⟨rfl, by decide, by decide,
   Option.some.inj
     ((migrate_up_applies_pending (fun db => ((), db))
        (fun _ _ db => (({ units := demoUnits, negativeTarget := none }, none), db))
        "migrations" migrateUpCmd [] (demoEngineState 1) rfl).2 (by decide)
        |>.2 (by decide)).1.symm,
   ((migrate_up_applies_pending (fun db => ((), db))
        (fun _ _ db => (({ units := demoUnits, negativeTarget := none }, none), db))
        "migrations" migrateUpCmd [] (demoEngineState 1) rfl).2 (by decide)
        |>.2 (by decide)).2.1⟩

/-- C6 as stated fails at the nonzero step `-1`: a run cannot apply "up to -1"
migrations, since the number of migrations a run applied is never below zero.
Shown for a migrator with no target at a negative step (it applies both pending
units) and for one with target 0 there (it applies none). -/
theorem migrate_up_negative_step_not_up_to :
    (-1 : Int) ≠ 0 ∧
    (RunE (demoEngine none) "migrations" migrateUpCmd [] (demoEngineState (-1))).1 = none ∧
    ¬ (appliedCount (demoEngine none) "migrations" migrateUpCmd [] (demoEngineState (-1))
        ≤ -1) ∧
    (RunE (demoEngine (some 0)) "migrations" migrateUpCmd [] (demoEngineState (-1))).1 = none ∧
    ¬ (appliedCount (demoEngine (some 0)) "migrations" migrateUpCmd [] (demoEngineState (-1))
        ≤ -1) := by
  decide

end Soda
